import Mathlib

/-!
Verification of the order-sequencing and lifecycle core of the
`deliveryappServer` repository (`server/currentOrder.js`).

The JavaScript module is shallowly embedded:

* the `current_orders` table is a `List OrderRow`;
* JS numbers used for money are modelled as exact rationals `ℚ`, with
  `Number.prototype.toFixed(2)` modelled as rounding to hundredths
  (`round2`);
* timestamps are epoch milliseconds (`Nat`); `Date.toISOString().slice(0,10)`
  is `utcDateString`, computed by the standard civil-from-days algorithm;
* JS falsiness of optional strings/numbers (`x || d`) is modelled on
  `Option` values, with the empty string and `0` counting as falsy;
* the HTTP handlers become pure functions that also return the list of
  observable events (transaction begin/commit/rollback, insert, sleep,
  HTTP response, websocket broadcast) in the order the code performs them;
* the nondeterminism of the database (duplicate-key races on insert, the
  state visible to each retry attempt, `Math.random()`) is supplied by
  explicit oracles.
-/

/-- JS falsiness test for an optional string value: `undefined`/`null` and
the empty string are falsy (`!x` is true). -/
def jsFalsyS (v : Option String) : Bool :=
  match v with
  | none => true
  | some s => s == ""

/-- JS `x || d` for an optional string: falsy values are replaced by `d`. -/
def jsOrStr (v : Option String) (d : String) : String :=
  match v with
  | none => d
  | some s => if s == "" then d else s

/-- JS `x || null` for an optional string: the empty string becomes `null`. -/
def jsOrNullStr (v : Option String) : Option String :=
  match v with
  | none => none
  | some s => if s == "" then none else some s

/-- JS `x || null` for an optional number: `0` becomes `null`. -/
def jsOrNullNat (v : Option Nat) : Option Nat :=
  match v with
  | none => none
  | some n => if n == 0 then none else some n

/-- One character of `String.prototype.toLowerCase()`: ASCII `A`–`Z` and the
Cyrillic letters `А`–`Я`/`Ё` (the only non-ASCII letters appearing in the
payment-method alias lists) are mapped to lower case. -/
def jsLowerChar (c : Char) : Char :=
  if 'A' ≤ c ∧ c ≤ 'Z' then Char.ofNat (c.toNat + 32)
  else if 'А' ≤ c ∧ c ≤ 'Я' then Char.ofNat (c.toNat + 32)
  else if c = 'Ё' then 'ё'
  else c

/-- `String.prototype.toLowerCase()` as used by the module. -/
def jsToLower (s : String) : String :=
  String.mk (s.data.map jsLowerChar)

/-- A whitespace character as trimmed by `String.prototype.trim()`. -/
def isJsWs (c : Char) : Bool :=
  c == ' ' || c == '\t' || c == '\n' || c == '\r'

/-- `String.prototype.trim()`: strip whitespace from both ends. -/
def jsTrim (s : String) : String :=
  String.mk (((s.data.dropWhile isJsWs).reverse.dropWhile isJsWs).reverse)

/-- `(+x).toFixed(2)`: round a rational to two fractional digits
(half-up, the behavior of `toFixed` on the exact decimal value). -/
def round2 (q : ℚ) : ℚ :=
  ((round (q * 100) : ℤ) : ℚ) / 100

/-- A line item as it arrives in the request body (`selectedItems` entries);
all fields are optional in JSON. -/
structure RawItem where
  id : Option Nat
  name : Option String
  price : Option ℚ
  discount : Option ℚ
  quantity : Option ℚ
deriving DecidableEq

/-- A normalized line item as produced by `normalizeItemsAndAmounts` and
stored in `items_json`. -/
structure NormItem where
  id : Option Nat
  name : String
  price : ℚ
  discount : ℚ
  final_price : ℚ
  quantity : ℚ
  line_total : ℚ
deriving DecidableEq

/-- The result of `normalizeItemsAndAmounts`: normalized items plus the
monetary totals recomputed from them. -/
structure Amounts where
  items : List NormItem
  amount_subtotal : ℚ
  amount_discount : ℚ
  amount_total : ℚ
deriving DecidableEq

/-- `normalizeItemsAndAmounts(items)` from `currentOrder.js`: normalizes each
line item (`Number(it.price || 0)` etc., per-line totals via `toFixed(2)`)
and recomputes `amount_subtotal`, `amount_total` and `amount_discount`. -/
def normalizeItemsAndAmounts (items : List RawItem) : Amounts :=
  let norm := items.map (fun it =>
    let price := it.price.getD 0
    let discount := it.discount.getD 0
    let qty := it.quantity.getD 0
    let final_price := round2 (price * (1 - discount / 100))
    let line_total := round2 (final_price * qty)
    { id := it.id
      name := it.name.getD ""
      price := price
      discount := discount
      final_price := final_price
      quantity := qty
      line_total := line_total : NormItem })
  let subtotal := round2 ((norm.map (fun r => r.price * r.quantity)).sum)
  let total := round2 ((norm.map (fun r => r.line_total)).sum)
  let discount := round2 (subtotal - total)
  { items := norm
    amount_subtotal := subtotal
    amount_discount := discount
    amount_total := total }

/-- The aliases recognized as `cash` by `coercePaymentMethod`. -/
def cashAliases : List String := ["cash", "наличные", "нал"]

/-- The aliases recognized as `card` by `coercePaymentMethod`. -/
def cardAliases : List String := ["card", "карта", "банковская карта"]

/-- The aliases recognized as `wire` by `coercePaymentMethod`. -/
def wireAliases : List String := ["wire", "перечислением", "безнал", "безналичный"]

/-- `coercePaymentMethod(val)` from `currentOrder.js`: lower-cases and trims
`String(val || "")`, maps recognized aliases to the enum `cash`/`card`/`wire`,
and defaults everything else to `"cash"`. -/
def coercePaymentMethod (val : Option String) : String :=
  let s := jsToLower (jsTrim (jsOrStr val ""))
  if s ∈ cashAliases then "cash"
  else if s ∈ cardAliases then "card"
  else if s ∈ wireAliases then "wire"
  else "cash"

/-- Convert a count of days since the Unix epoch to the Gregorian civil date
`(year, month, day)` (the date component of `Date.toISOString`). -/
def civilFromDays (z0 : Nat) : Nat × Nat × Nat :=
  let z := z0 + 719468
  let era := z / 146097
  let doe := z % 146097
  let yoe := (doe - doe / 1460 + doe / 36524 - doe / 146096) / 365
  let y := yoe + era * 400
  let doy := doe - (365 * yoe + yoe / 4 - yoe / 100)
  let mp := (5 * doy + 2) / 153
  let d := doy - (153 * mp + 2) / 5 + 1
  let m := if mp < 10 then mp + 3 else mp - 9
  (if m ≤ 2 then y + 1 else y, m, d)

/-- Zero-pad a number to two digits. -/
def pad2 (n : Nat) : String :=
  if n < 10 then "0" ++ toString n else toString n

/-- Zero-pad a number to four digits. -/
def pad4 (n : Nat) : String :=
  if n < 10 then "000" ++ toString n
  else if n < 100 then "00" ++ toString n
  else if n < 1000 then "0" ++ toString n
  else toString n

/-- `new Date(ms).toISOString().slice(0, 10)`: the UTC calendar date
`YYYY-MM-DD` of an epoch-milliseconds timestamp. -/
def utcDateString (ms : Nat) : String :=
  let c := civilFromDays (ms / 86400000)
  pad4 c.1 ++ "-" ++ pad2 c.2.1 ++ "-" ++ pad2 c.2.2

/-- `deriveOrderSeqDate(orderType, scheduledAt)` from `currentOrder.js`, with
the clock passed explicitly: a preorder with a (truthy) scheduled timestamp is
numbered on the scheduled UTC date, everything else on the current UTC date. -/
def deriveOrderSeqDate (orderType : String) (scheduledAt : Option Nat) (now : Nat) : String :=
  if orderType == "preorder" then
    match scheduledAt with
    | some t => utcDateString t
    | none => utcDateString now
  else utcDateString now

/-- One persisted row of the `current_orders` table. -/
structure OrderRow where
  order_id : Nat
  company_id : Nat
  order_no : String
  order_seq : Nat
  order_seq_date : String
  order_type : String
  status : String
  scheduled_at : Option Nat
  courier_unit_id : Option Nat
  pickup_unit_id : Option Nat
  dispatcher_unit_id : Option Nat
  payment_method : String
  customer_name : Option String
  customer_phone : Option String
  address_street : Option String
  address_house : Option String
  address_building : Option String
  address_apartment : Option String
  address_floor : Option String
  address_code : Option String
  notes : Option String
  items_json : List NormItem
  amount_subtotal : ℚ
  amount_discount : ℚ
  amount_total : ℚ
  created_at : Nat
  updated_at : Nat
deriving DecidableEq

/-- The rows of the sequence partition `(companyId, orderSeqDate)`: the rows
selected by `WHERE company_id=? AND order_seq_date=?`. -/
def partitionRows (db : List OrderRow) (companyId : Nat) (orderSeqDate : String) : List OrderRow :=
  db.filter (fun r => r.company_id == companyId && r.order_seq_date == orderSeqDate)

/-- `SELECT COALESCE(MAX(order_seq), 0) ... WHERE company_id=? AND
order_seq_date=?`: the maximum sequence number in the partition, `0` when the
partition is empty. -/
def sqlMaxSeq (db : List OrderRow) (companyId : Nat) (orderSeqDate : String) : Nat :=
  ((partitionRows db companyId orderSeqDate).map (fun r => r.order_seq)).foldr max 0

/-- `allocateDailySeq(conn, companyId, orderSeqDate)` from `currentOrder.js`:
one plus the maximum committed `order_seq` of the partition. -/
def allocateDailySeq (db : List OrderRow) (companyId : Nat) (orderSeqDate : String) : Nat :=
  sqlMaxSeq db companyId orderSeqDate + 1

/-- The request body consumed by the create/update handlers. All fields are
optional (absent JSON keys are `none`); `amountSubtotal`/`amountDiscount`/
`amountTotal` model caller-supplied precomputed totals, which the handlers
never read. -/
structure Body where
  customer : Option String
  phone : Option String
  payment : Option String
  selectedItems : Option (List RawItem)
  orderNo : Option String
  orderType : Option String
  scheduledAt : Option Nat
  status : Option String
  courierId : Option Nat
  pickupId : Option Nat
  street : Option String
  house : Option String
  building : Option String
  apart : Option String
  floor : Option String
  code : Option String
  notes : Option String
  amountSubtotal : Option ℚ
  amountDiscount : Option ℚ
  amountTotal : Option ℚ
deriving DecidableEq

/-- `` `CO-${Date.now().toString().slice(-8)}` ``: the generated order number
when the caller supplies none. -/
def defaultOrderNo (now : Nat) : String :=
  let s := toString now
  "CO-" ++ s.drop (s.length - 8)

/-- The row written by the `INSERT INTO current_orders` statement of the
create handler. -/
def insertedRow (companyId newId : Nat) (orderNo : String) (seq : Nat)
    (dateStr orderType : String) (b : Body) (userUnitId : Option Nat)
    (paymentMethod : String) (na : Amounts) (now : Nat) : OrderRow :=
  { order_id := newId
    company_id := companyId
    order_no := orderNo
    order_seq := seq
    order_seq_date := dateStr
    order_type := orderType
    status := jsOrStr b.status "new"
    scheduled_at := jsOrNullNat b.scheduledAt
    courier_unit_id := jsOrNullNat b.courierId
    pickup_unit_id := jsOrNullNat b.pickupId
    dispatcher_unit_id := userUnitId
    payment_method := paymentMethod
    customer_name := b.customer
    customer_phone := b.phone
    address_street := jsOrNullStr b.street
    address_house := jsOrNullStr b.house
    address_building := jsOrNullStr b.building
    address_apartment := jsOrNullStr b.apart
    address_floor := jsOrNullStr b.floor
    address_code := jsOrNullStr b.code
    notes := jsOrNullStr b.notes
    items_json := na.items
    amount_subtotal := na.amount_subtotal
    amount_discount := na.amount_discount
    amount_total := na.amount_total
    created_at := now
    updated_at := now }

/-- The outcome the database gives one execution of the `INSERT` statement:
success, a duplicate-key conflict (`ER_DUP_ENTRY`) on the sequence, or any
other error. -/
inductive InsertOutcome where
  | ok : InsertOutcome
  | dupEntry : InsertOutcome
  | otherError : InsertOutcome
deriving DecidableEq

/-- An observable event of a handler execution, in program order. -/
inductive Ev where
  | beginTxn : Ev
  | insertRow : Nat → Ev
  | commitTxn : Ev
  | rollbackTxn : Ev
  | sleep : ℚ → Ev
  | respond : Nat → Ev
  | notify : String → Ev
deriving DecidableEq

/-- The `while (true)` retry loop of the create handler. `attempt` is the
value of `attempts` inside the current iteration (starting at 1) and `fuel`
is the number of retries still allowed by `attempts < 5` (starting at 4).
`dbAt` gives the committed state each attempt's `SELECT ... FOR UPDATE`
sees, `outcomes` the database's verdict on each attempt's insert, and
`rand` the value of `Math.random()` used for the backoff delay. -/
def createLoop (dbAt : Nat → List OrderRow) (outcomes : Nat → InsertOutcome)
    (rand : Nat → ℚ) (companyId : Nat) (dateStr : String)
    (mkRow : Nat → OrderRow) : Nat → Nat → List Ev × Option OrderRow
  | fuel, attempt =>
    let seq := allocateDailySeq (dbAt attempt) companyId dateStr
    match outcomes attempt with
    | .ok => ([.beginTxn, .insertRow seq, .commitTxn], some (mkRow seq))
    | .otherError => ([.beginTxn, .insertRow seq, .rollbackTxn], none)
    | .dupEntry =>
      match fuel with
      | 0 => ([.beginTxn, .insertRow seq, .rollbackTxn], none)
      | fuel' + 1 =>
        let rest := createLoop dbAt outcomes rand companyId dateStr mkRow fuel' (attempt + 1)
        ([.beginTxn, .insertRow seq, .rollbackTxn, .sleep (10 + rand attempt * 40)] ++ rest.1,
         rest.2)

/-- What a handler execution produced: its event trace, the resulting table
state, and the row it created (if any). -/
structure CreateResult where
  trace : List Ev
  db : List OrderRow
  newRow : Option OrderRow
deriving DecidableEq

/-- The `POST /api/current-orders` handler (`router.post("/")`), with the
clock, the fresh primary key, and the database oracles passed explicitly.
Validation runs before any connection/transaction work; the insert is retried
from transaction-open on `ER_DUP_ENTRY` while `attempts < 5`; on success the
handler responds and then broadcasts `order_created`. -/
def createOrder (db : List OrderRow) (companyId : Nat) (userUnitId : Option Nat)
    (b : Body) (now newId : Nat) (dbAt : Nat → List OrderRow)
    (outcomes : Nat → InsertOutcome) (rand : Nat → ℚ) : CreateResult :=
  let na := normalizeItemsAndAmounts (b.selectedItems.getD [])
  if jsFalsyS b.customer || jsFalsyS b.phone then
    { trace := [.respond 400], db := db, newRow := none }
  else if jsFalsyS b.payment then
    { trace := [.respond 400], db := db, newRow := none }
  else
    let orderNo := jsOrStr b.orderNo (defaultOrderNo now)
    let payment_method := coercePaymentMethod b.payment
    let order_type := jsOrStr b.orderType "active"
    let scheduled_at := jsOrNullNat b.scheduledAt
    let order_seq_date := deriveOrderSeqDate order_type scheduled_at now
    let mkRow := fun seq =>
      insertedRow companyId newId orderNo seq order_seq_date order_type b
        userUnitId payment_method na now
    let res := createLoop dbAt outcomes rand companyId order_seq_date mkRow 4 1
    match res.2 with
    | none => { trace := res.1 ++ [.respond 500], db := db, newRow := none }
    | some row =>
      { trace := res.1 ++ [.respond 200, .notify "order_created"]
        db := db ++ [row]
        newRow := some row }

/-- The `SET` clause of the `UPDATE current_orders` statement of the PUT
handler, applied to one matched row. -/
def applyUpdate (b : Body) (now : Nat) (r : OrderRow) : OrderRow :=
  let na := normalizeItemsAndAmounts (b.selectedItems.getD [])
  { r with
    order_type := jsOrStr b.orderType "active"
    status := jsOrStr b.status "new"
    scheduled_at := jsOrNullNat b.scheduledAt
    courier_unit_id := jsOrNullNat b.courierId
    pickup_unit_id := jsOrNullNat b.pickupId
    payment_method := coercePaymentMethod b.payment
    customer_name := b.customer
    customer_phone := b.phone
    address_street := jsOrNullStr b.street
    address_house := jsOrNullStr b.house
    address_building := jsOrNullStr b.building
    address_apartment := jsOrNullStr b.apart
    address_floor := jsOrNullStr b.floor
    address_code := jsOrNullStr b.code
    notes := jsOrNullStr b.notes
    items_json := na.items
    amount_subtotal := na.amount_subtotal
    amount_discount := na.amount_discount
    amount_total := na.amount_total
    updated_at := now }

/-- The table state after the PUT handler's
`UPDATE current_orders ... WHERE company_id=? AND order_id=?`. -/
def updateOrderDb (db : List OrderRow) (companyId orderId : Nat) (b : Body)
    (now : Nat) : List OrderRow :=
  db.map (fun r =>
    if r.company_id == companyId && r.order_id == orderId then applyUpdate b now r else r)

/-- The `tab` filter of the list handler: `active` restricts to active orders
in a live status, `preorders` to preorders, anything else means `all`. -/
def tabFilter (tab : String) (r : OrderRow) : Bool :=
  if tab == "active" then
    r.order_type == "active" &&
      (r.status == "new" || r.status == "ready" || r.status == "enroute" || r.status == "paused")
  else if tab == "preorders" then
    r.order_type == "preorder"
  else true

/-- `ORDER BY co.created_at DESC, co.order_id DESC`: row `a` sorts no later
than row `b` in the output. -/
def rowBefore (a b : OrderRow) : Bool :=
  Nat.blt b.created_at a.created_at ||
    (b.created_at == a.created_at && Nat.ble b.order_id a.order_id)

/-- The `GET /api/current-orders` handler (`router.get("/")`): rows of the
caller's tenant passing the tab filter, sorted newest-first with ties broken
by descending id, truncated by `LIMIT 500`. -/
def listOrders (db : List OrderRow) (companyId : Nat) (tab : Option String) : List OrderRow :=
  let t := jsToLower (jsOrStr tab "active")
  ((db.filter (fun r => r.company_id == companyId && tabFilter t r)).mergeSort rowBefore).take 500

/-- What the status-transition handler produced: the HTTP status code, the
`ok` flag of the JSON body, the resulting table state, and the broadcast
event types it published. -/
structure PatchResult where
  httpStatus : Nat
  bodyOk : Bool
  db : List OrderRow
  notifications : List String
deriving DecidableEq

/-- The `PATCH /api/current-orders/:id/status` handler
(`router.patch("/:id/status")`): rejects a missing status with 400, updates
the matched row (if any), re-reads it, and answers plain `ok:true` without a
broadcast when no row matched. -/
def patchStatus (db : List OrderRow) (companyId orderId : Nat)
    (status : Option String) (now : Nat) : PatchResult :=
  if jsFalsyS status then
    { httpStatus := 400, bodyOk := false, db := db, notifications := [] }
  else
    let db' := db.map (fun r =>
      if r.company_id == companyId && r.order_id == orderId then
        { r with status := status.getD "", updated_at := now }
      else r)
    match db'.filter (fun r => r.company_id == companyId && r.order_id == orderId) with
    | [] => { httpStatus := 200, bodyOk := true, db := db', notifications := [] }
    | _ :: _ => { httpStatus := 200, bodyOk := true, db := db', notifications := ["order_updated"] }

/-! ## Helper lemmas -/

theorem le_foldr_max {l : List Nat} {x : Nat} (hx : x ∈ l) : x ≤ l.foldr max 0 := by
  induction l with
  | nil => cases hx
  | cons a t ih =>
    rcases List.mem_cons.mp hx with h | h
    · subst h; exact le_max_left _ _
    · exact le_trans (ih h) (le_max_right _ _)

theorem foldr_max_mem {l : List Nat} (h : l ≠ []) : l.foldr max 0 ∈ l := by
  induction l with
  | nil => exact absurd rfl h
  | cons a t ih =>
    cases t with
    | nil => simp
    | cons b t' =>
      by_cases hle : (b :: t').foldr max 0 ≤ a
      · simp only [List.foldr_cons] at *
        rw [max_eq_left hle]
        exact List.mem_cons_self _ _
      · simp only [List.foldr_cons] at *
        rw [max_eq_right (le_of_not_le hle)]
        exact List.mem_cons_of_mem _ (ih (by simp))

theorem jsOrStr_some_empty (s : String) : jsOrStr (some s) "" = s := by
  by_cases h : s == ""
  · have hs : s = "" := eq_of_beq h
    subst hs; rfl
  · simp only [jsOrStr, if_neg h]

/-! ## C1: the daily sequence allocator -/

/-- C1: for every tenant `c` and operational day `d`, `allocateDailySeq`
returns one plus the maximum `order_seq` among existing orders of exactly the
partition `(c, d)`: it is strictly positive, it returns `1` when the partition
is empty, it strictly dominates every sequence number already in the
partition, for a nonempty partition it equals some partition member's
sequence plus one, it depends only on the partition's rows, and it is
unaffected by an order of another tenant or another day. -/
theorem allocateDailySeq_correct (db : List OrderRow) (c : Nat) (d : String) :
    0 < allocateDailySeq db c d
    ∧ (partitionRows db c d = [] → allocateDailySeq db c d = 1)
    ∧ (∀ r ∈ partitionRows db c d, r.order_seq < allocateDailySeq db c d)
    ∧ (partitionRows db c d ≠ [] →
        ∃ r ∈ partitionRows db c d, allocateDailySeq db c d = r.order_seq + 1)
    ∧ (∀ db' : List OrderRow, partitionRows db' c d = partitionRows db c d →
        allocateDailySeq db' c d = allocateDailySeq db c d)
    ∧ (∀ r : OrderRow, r.company_id ≠ c ∨ r.order_seq_date ≠ d →
        allocateDailySeq (r :: db) c d = allocateDailySeq db c d) := by
  refine ⟨Nat.succ_pos _, ?_, ?_, ?_, ?_, ?_⟩
  · intro h
    simp [allocateDailySeq, sqlMaxSeq, h]
  · intro r hr
    have hx : r.order_seq ∈ (partitionRows db c d).map (fun r => r.order_seq) :=
      List.mem_map_of_mem _ hr
    have := le_foldr_max hx
    exact Nat.lt_succ_of_le this
  · intro h
    have hm : (partitionRows db c d).map (fun r => r.order_seq) ≠ [] := by
      simpa using h
    have hmem := foldr_max_mem hm
    rcases List.mem_map.mp hmem with ⟨r, hr, hfr⟩
    exact ⟨r, hr, by simp [allocateDailySeq, sqlMaxSeq, hfr]⟩
  · intro db' hpr
    simp [allocateDailySeq, sqlMaxSeq, hpr]
  · intro r hne
    have hpred : (r.company_id == c && r.order_seq_date == d) = false := by
      rcases hne with h | h
      · simp [beq_eq_false_iff_ne.mpr h]
      · simp [beq_eq_false_iff_ne.mpr h]
    simp [allocateDailySeq, sqlMaxSeq, partitionRows, List.filter_cons, hpred]

/-- A concrete row belonging to tenant 2 on day `2024-09-20`. -/
def rowT2 : OrderRow :=
  { order_id := 7
    company_id := 2
    order_no := "CO-00000001"
    order_seq := 4
    order_seq_date := "2024-09-20"
    order_type := "active"
    status := "new"
    scheduled_at := none
    courier_unit_id := none
    pickup_unit_id := none
    dispatcher_unit_id := none
    payment_method := "cash"
    customer_name := some "Ivan"
    customer_phone := some "+371200000"
    address_street := none
    address_house := none
    address_building := none
    address_apartment := none
    address_floor := none
    address_code := none
    notes := none
    items_json := []
    amount_subtotal := 0
    amount_discount := 0
    amount_total := 0
    created_at := 1726826400000
    updated_at := 1726826400000 }

/-- Witness for C1: with only a tenant-2 order on the books, tenant 1's
partition for `2024-09-20` is fresh and the allocator yields `1`. -/
theorem allocateDailySeq_correct_witness :
    allocateDailySeq [rowT2] 1 "2024-09-20" = 1
      ∧ 0 < allocateDailySeq [rowT2] 1 "2024-09-20" :=
  ⟨(allocateDailySeq_correct [rowT2] 1 "2024-09-20").2.1 (by decide),
   (allocateDailySeq_correct [rowT2] 1 "2024-09-20").1⟩

/-! ## C2: operational-day derivation -/

/-- C2: `deriveOrderSeqDate` is a pure function of
`(orderType, scheduledAt, now)`: a `preorder` with a scheduled timestamp is
dated on the UTC calendar date of `scheduledAt`, while every other input —
an active order (even one carrying a `scheduledAt`), or a preorder without a
scheduled timestamp — is dated on the UTC calendar date of `now`. -/
theorem deriveOrderSeqDate_correct (orderType : String) (scheduledAt : Option Nat) (now : Nat) :
    (∀ t : Nat, orderType = "preorder" → scheduledAt = some t →
      deriveOrderSeqDate orderType scheduledAt now = utcDateString t)
    ∧ (orderType ≠ "preorder" ∨ scheduledAt = none →
      deriveOrderSeqDate orderType scheduledAt now = utcDateString now) := by
  constructor
  · intro t h1 h2
    subst h1; subst h2
    simp [deriveOrderSeqDate]
  · intro h
    rcases h with h | h
    · simp [deriveOrderSeqDate, beq_eq_false_iff_ne.mpr h]
    · subst h
      unfold deriveOrderSeqDate
      by_cases hb : orderType == "preorder" <;> simp [hb]

/-- Witness for C2, on the repository's own test dates: a preorder scheduled
for `2024-09-25T10:00:00Z` while now is `2024-09-20T10:00:00Z` is numbered on
`2024-09-25`, while an active order carrying the same `scheduledAt` is
numbered on today's `2024-09-20`. -/
theorem deriveOrderSeqDate_correct_witness :
    deriveOrderSeqDate "preorder" (some 1727258400000) 1726826400000 = "2024-09-25"
      ∧ deriveOrderSeqDate "active" (some 1727258400000) 1726826400000 = "2024-09-20" := by
  constructor
  · have h := (deriveOrderSeqDate_correct "preorder" (some 1727258400000) 1726826400000).1
      1727258400000 rfl rfl
    rw [h]; decide
  · have h := (deriveOrderSeqDate_correct "active" (some 1727258400000) 1726826400000).2
      (Or.inl (by decide))
    rw [h]; decide

/-! ## C8: payment-method coercion -/

theorem coercePaymentMethod_some (s : String) :
    coercePaymentMethod (some s) =
      (if jsToLower (jsTrim s) ∈ cashAliases then "cash"
       else if jsToLower (jsTrim s) ∈ cardAliases then "card"
       else if jsToLower (jsTrim s) ∈ wireAliases then "wire"
       else "cash") := by
  simp only [coercePaymentMethod, jsOrStr_some_empty]

/-- C8: `coercePaymentMethod` is total and always yields a member of
`cash`/`card`/`wire`: each recognized alias (after trimming and
lower-casing) maps to its canonical value, a missing value maps to `"cash"`,
and every unrecognized input is coerced to `"cash"` rather than rejected. -/
theorem coercePaymentMethod_correct :
    (∀ v : Option String,
      coercePaymentMethod v = "cash" ∨ coercePaymentMethod v = "card"
        ∨ coercePaymentMethod v = "wire")
    ∧ coercePaymentMethod none = "cash"
    ∧ (∀ s : String, jsToLower (jsTrim s) ∈ cashAliases →
        coercePaymentMethod (some s) = "cash")
    ∧ (∀ s : String, jsToLower (jsTrim s) ∈ cardAliases →
        coercePaymentMethod (some s) = "card")
    ∧ (∀ s : String, jsToLower (jsTrim s) ∈ wireAliases →
        coercePaymentMethod (some s) = "wire")
    ∧ (∀ s : String, jsToLower (jsTrim s) ∉ cashAliases →
        jsToLower (jsTrim s) ∉ cardAliases →
        jsToLower (jsTrim s) ∉ wireAliases →
        coercePaymentMethod (some s) = "cash") := by
  refine ⟨?_, by decide, ?_, ?_, ?_, ?_⟩
  · intro v
    cases v with
    | none => exact Or.inl (by decide)
    | some s =>
      rw [coercePaymentMethod_some]
      split_ifs <;> simp
  · intro s h
    rw [coercePaymentMethod_some, if_pos h]
  · intro s h
    have hnc : jsToLower (jsTrim s) ∉ cashAliases := by
      simp only [cardAliases, List.mem_cons, List.not_mem_nil, or_false] at h
      rcases h with h | h | h <;> rw [h] <;> decide
    rw [coercePaymentMethod_some, if_neg hnc, if_pos h]
  · intro s h
    have hnc : jsToLower (jsTrim s) ∉ cashAliases := by
      simp only [wireAliases, List.mem_cons, List.not_mem_nil, or_false] at h
      rcases h with h | h | h | h <;> rw [h] <;> decide
    have hnd : jsToLower (jsTrim s) ∉ cardAliases := by
      simp only [wireAliases, List.mem_cons, List.not_mem_nil, or_false] at h
      rcases h with h | h | h | h <;> rw [h] <;> decide
    rw [coercePaymentMethod_some, if_neg hnc, if_neg hnd, if_pos h]
  · intro s h1 h2 h3
    rw [coercePaymentMethod_some, if_neg h1, if_neg h2, if_neg h3]

/-- Witness for C8: the Russian alias `" Карта "` (with surrounding spaces and
capitals) coerces to `card`, and the unrecognized `"visa"` coerces to `cash`
instead of failing. -/
theorem coercePaymentMethod_correct_witness :
    coercePaymentMethod (some " Карта ") = "card"
      ∧ coercePaymentMethod (some "visa") = "cash" :=
  ⟨coercePaymentMethod_correct.2.2.2.1 " Карта " (by decide),
   coercePaymentMethod_correct.2.2.2.2.2 "visa" (by decide) (by decide) (by decide)⟩

/-- The lower-casing and trimming pipeline behaves as on the JS side. -/
theorem jsTrim_lower_example : jsToLower (jsTrim " Карта ") = "карта" := by decide

/-! ## C6: monetary amounts are recomputed from the items -/

theorem round2_sub_round2 (a b : ℚ) :
    round2 (round2 a - round2 b) = round2 a - round2 b := by
  unfold round2
  have h : (((round (a * 100) : ℤ) : ℚ) / 100 - ((round (b * 100) : ℤ) : ℚ) / 100) * 100
      = ((round (a * 100) - round (b * 100) : ℤ) : ℚ) := by
    push_cast
    ring
  rw [h, round_intCast]
  push_cast
  ring

theorem createLoop_some_shape (dbAt : Nat → List OrderRow) (outcomes : Nat → InsertOutcome)
    (rand : Nat → ℚ) (c : Nat) (dateStr : String) (mkRow : Nat → OrderRow) :
    ∀ fuel attempt row,
      (createLoop dbAt outcomes rand c dateStr mkRow fuel attempt).2 = some row →
      ∃ s, row = mkRow s := by
  intro fuel
  induction fuel with
  | zero =>
    intro attempt row h
    simp only [createLoop] at h
    cases houtc : outcomes attempt <;> rw [houtc] at h <;> simp at h
    exact ⟨_, h.symm⟩
  | succ f ih =>
    intro attempt row h
    simp only [createLoop] at h
    cases houtc : outcomes attempt <;> rw [houtc] at h <;> simp at h
    · exact ⟨_, h.symm⟩
    · exact ih (attempt + 1) row h

/-- C6: on every write, the stored monetary amounts are those recomputed by
`normalizeItemsAndAmounts` from the request's line items — the caller's
precomputed totals are never consulted — and they satisfy
`amount_total = amount_subtotal - amount_discount`, where the subtotal is the
(2-digit-rounded) sum of `price * quantity`, each line applies its discount
percent via 2-digit rounding, the total is the rounded sum of the line
totals, the row inserted by a successful create carries exactly the
recomputed amounts, and the PUT update statement stores exactly the
recomputed amounts. -/
theorem normalizeItemsAndAmounts_correct (b : Body) :
    (normalizeItemsAndAmounts (b.selectedItems.getD [])).amount_total
      = (normalizeItemsAndAmounts (b.selectedItems.getD [])).amount_subtotal
        - (normalizeItemsAndAmounts (b.selectedItems.getD [])).amount_discount
    ∧ (normalizeItemsAndAmounts (b.selectedItems.getD [])).amount_subtotal
      = round2 (((normalizeItemsAndAmounts (b.selectedItems.getD [])).items.map
          (fun r => r.price * r.quantity)).sum)
    ∧ (∀ ni ∈ (normalizeItemsAndAmounts (b.selectedItems.getD [])).items,
        ni.final_price = round2 (ni.price * (1 - ni.discount / 100))
          ∧ ni.line_total = round2 (ni.final_price * ni.quantity))
    ∧ (normalizeItemsAndAmounts (b.selectedItems.getD [])).amount_total
      = round2 (((normalizeItemsAndAmounts (b.selectedItems.getD [])).items.map
          (fun r => r.line_total)).sum)
    ∧ (∀ (db : List OrderRow) (c : Nat) (u : Option Nat) (now newId : Nat)
          (dbAt : Nat → List OrderRow) (outcomes : Nat → InsertOutcome) (rand : Nat → ℚ)
          (row : OrderRow),
        (createOrder db c u b now newId dbAt outcomes rand).newRow = some row →
          row.amount_subtotal = (normalizeItemsAndAmounts (b.selectedItems.getD [])).amount_subtotal
          ∧ row.amount_discount = (normalizeItemsAndAmounts (b.selectedItems.getD [])).amount_discount
          ∧ row.amount_total = (normalizeItemsAndAmounts (b.selectedItems.getD [])).amount_total
          ∧ row.items_json = (normalizeItemsAndAmounts (b.selectedItems.getD [])).items)
    ∧ (∀ (now : Nat) (r : OrderRow),
        (applyUpdate b now r).amount_subtotal
            = (normalizeItemsAndAmounts (b.selectedItems.getD [])).amount_subtotal
          ∧ (applyUpdate b now r).amount_discount
            = (normalizeItemsAndAmounts (b.selectedItems.getD [])).amount_discount
          ∧ (applyUpdate b now r).amount_total
            = (normalizeItemsAndAmounts (b.selectedItems.getD [])).amount_total
          ∧ (applyUpdate b now r).items_json
            = (normalizeItemsAndAmounts (b.selectedItems.getD [])).items) := by
  refine ⟨?_, rfl, ?_, rfl, ?_, ?_⟩
  · simp only [normalizeItemsAndAmounts]
    rw [round2_sub_round2]
    ring
  · intro ni hni
    simp only [normalizeItemsAndAmounts, List.mem_map] at hni
    rcases hni with ⟨it, _, hit⟩
    subst hit
    exact ⟨rfl, rfl⟩
  · intro db c u now newId dbAt outcomes rand row h
    by_cases h1 : (jsFalsyS b.customer || jsFalsyS b.phone)
    · simp only [createOrder, h1, if_true] at h
      cases h
    · by_cases h2 : jsFalsyS b.payment
      · simp only [createOrder, h1, h2, if_false, if_true] at h
        cases h
      · simp only [createOrder, h1, h2, if_false] at h
        rcases hres : (createLoop (fun attempt => dbAt attempt) outcomes rand c
            (deriveOrderSeqDate (jsOrStr b.orderType "active") (jsOrNullNat b.scheduledAt) now)
            (fun seq =>
              insertedRow c newId (jsOrStr b.orderNo (defaultOrderNo now)) seq
                (deriveOrderSeqDate (jsOrStr b.orderType "active") (jsOrNullNat b.scheduledAt) now)
                (jsOrStr b.orderType "active") b u (coercePaymentMethod b.payment)
                (normalizeItemsAndAmounts (b.selectedItems.getD [])) now) 4 1).2
          with _ | row'
        · rw [hres] at h
          cases h
        · rw [hres] at h
          simp only [CreateResult.mk.injEq] at h
          have hrow : row' = row := by
            simpa using h
          subst hrow
          rcases createLoop_some_shape _ _ _ _ _ _ _ _ _ hres with ⟨s, hs⟩
          subst hs
          exact ⟨rfl, rfl, rfl, rfl⟩
  · intro now r
    exact ⟨rfl, rfl, rfl, rfl⟩

/-- A concrete request line item: unit price 100, discount 10 percent,
quantity 2. -/
def item1 : RawItem :=
  { id := some 1, name := some "Pizza", price := some 100, discount := some 10,
    quantity := some 2 }

/-- A concrete valid create/update request body carrying bogus caller-supplied
totals, which the handlers must ignore. -/
def body1 : Body :=
  { customer := some "Ivan", phone := some "+37120000000", payment := some "card",
    selectedItems := some [item1], orderNo := none, orderType := none,
    scheduledAt := none, status := none, courierId := none, pickupId := none,
    street := some "Brivibas", house := some "1", building := none, apart := none,
    floor := none, code := none, notes := none,
    amountSubtotal := some 999, amountDiscount := some 999, amountTotal := some 999 }

/-- Witness for C6: for the concrete one-item body the recomputed amounts
satisfy the total identity, and the PUT update stores exactly the recomputed
total rather than the caller's claimed `999`. -/
theorem normalizeItemsAndAmounts_correct_witness :
    (normalizeItemsAndAmounts (body1.selectedItems.getD [])).amount_total
      = (normalizeItemsAndAmounts (body1.selectedItems.getD [])).amount_subtotal
        - (normalizeItemsAndAmounts (body1.selectedItems.getD [])).amount_discount
    ∧ (applyUpdate body1 0 rowT2).amount_total
      = (normalizeItemsAndAmounts (body1.selectedItems.getD [])).amount_total :=
  ⟨(normalizeItemsAndAmounts_correct body1).1,
   ((normalizeItemsAndAmounts_correct body1).2.2.2.2.2 0 rowT2).2.2.1⟩

/-! ## C3: the PUT handler never touches the sequence fields -/

/-- C3: the PUT update statement maps each stored row in place, and on every
row — matched or not, whatever the patch contains (including a changed
`orderType` or `scheduledAt`) — it leaves `order_seq`, `order_seq_date`,
`order_id`, `company_id`, `order_no` and `created_at` unchanged; only the
mutable columns of its `SET` clause can differ. -/
theorem updateOrder_preserves_seq (db : List OrderRow) (c oid : Nat) (b : Body) (now : Nat) :
    (updateOrderDb db c oid b now).length = db.length
    ∧ ∀ i (h : i < db.length) (h' : i < (updateOrderDb db c oid b now).length),
        ((updateOrderDb db c oid b now).get ⟨i, h'⟩).order_seq = (db.get ⟨i, h⟩).order_seq
        ∧ ((updateOrderDb db c oid b now).get ⟨i, h'⟩).order_seq_date
            = (db.get ⟨i, h⟩).order_seq_date
        ∧ ((updateOrderDb db c oid b now).get ⟨i, h'⟩).order_id = (db.get ⟨i, h⟩).order_id
        ∧ ((updateOrderDb db c oid b now).get ⟨i, h'⟩).company_id = (db.get ⟨i, h⟩).company_id
        ∧ ((updateOrderDb db c oid b now).get ⟨i, h'⟩).order_no = (db.get ⟨i, h⟩).order_no
        ∧ ((updateOrderDb db c oid b now).get ⟨i, h'⟩).created_at = (db.get ⟨i, h⟩).created_at := by
  constructor
  · simp [updateOrderDb]
  · intro i h h'
    have hg : (updateOrderDb db c oid b now).get ⟨i, h'⟩
        = (fun r => if r.company_id == c && r.order_id == oid then applyUpdate b now r else r)
            (db.get ⟨i, h⟩) := by
      simp [updateOrderDb, List.get_map]
    rw [hg]
    dsimp only
    by_cases hc : ((db.get ⟨i, h⟩).company_id == c && (db.get ⟨i, h⟩).order_id == oid)
    · rw [if_pos hc]
      exact ⟨rfl, rfl, rfl, rfl, rfl, rfl⟩
    · rw [if_neg hc]
      exact ⟨rfl, rfl, rfl, rfl, rfl, rfl⟩

/-- Witness for C3: updating the concrete stored row with a patch that flips
it to a preorder leaves its sequence number and operational day intact. -/
theorem updateOrder_preserves_seq_witness :
    ((updateOrderDb [rowT2] 2 7 body1 99).get ⟨0, by decide⟩).order_seq
        = (([rowT2] : List OrderRow).get ⟨0, by decide⟩).order_seq
    ∧ ((updateOrderDb [rowT2] 2 7 body1 99).get ⟨0, by decide⟩).order_seq_date
        = (([rowT2] : List OrderRow).get ⟨0, by decide⟩).order_seq_date :=
  ⟨((updateOrder_preserves_seq [rowT2] 2 7 body1 99).2 0 (by decide) (by decide)).1,
   ((updateOrder_preserves_seq [rowT2] 2 7 body1 99).2 0 (by decide) (by decide)).2.1⟩

/-! ## C4, C5, C7: the create handler -/

theorem createLoop_no_notify (dbAt : Nat → List OrderRow) (outcomes : Nat → InsertOutcome)
    (rand : Nat → ℚ) (c : Nat) (dateStr : String) (mkRow : Nat → OrderRow) :
    ∀ fuel attempt ty,
      Ev.notify ty ∉ (createLoop dbAt outcomes rand c dateStr mkRow fuel attempt).1 := by
  intro fuel
  induction fuel with
  | zero =>
    intro attempt ty
    simp only [createLoop]
    cases outcomes attempt <;> simp
  | succ f ih =>
    intro attempt ty
    simp only [createLoop]
    cases outcomes attempt <;> simp
    exact ih (attempt + 1) ty

theorem createLoop_some_commit (dbAt : Nat → List OrderRow) (outcomes : Nat → InsertOutcome)
    (rand : Nat → ℚ) (c : Nat) (dateStr : String) (mkRow : Nat → OrderRow) :
    ∀ fuel attempt row,
      (createLoop dbAt outcomes rand c dateStr mkRow fuel attempt).2 = some row →
      Ev.commitTxn ∈ (createLoop dbAt outcomes rand c dateStr mkRow fuel attempt).1 := by
  intro fuel
  induction fuel with
  | zero =>
    intro attempt row h
    simp only [createLoop] at h ⊢
    cases houtc : outcomes attempt
    · simp
    · rw [houtc] at h
      simp at h
    · rw [houtc] at h
      simp at h
  | succ f ih =>
    intro attempt row h
    simp only [createLoop] at h ⊢
    cases houtc : outcomes attempt
    · simp
    · rw [houtc] at h
      have h' : (createLoop dbAt outcomes rand c dateStr mkRow f (attempt + 1)).2
          = some row := by
        simpa using h
      have hmem := ih (attempt + 1) row h'
      simp [List.mem_append, hmem]
    · rw [houtc] at h
      simp at h

theorem mem_take_append_of_mem {A B : List Ev} {x y : Ev}
    (hyA : y ∈ A) (hxA : x ∉ A) (n : Nat) (hx : x ∈ (A ++ B).take n) :
    y ∈ (A ++ B).take n := by
  rcases le_or_lt A.length n with hn | hn
  · rw [List.take_append_eq_append_take, List.take_all_of_le hn]
    exact List.mem_append_left _ hyA
  · have hz : n - A.length = 0 := Nat.sub_eq_zero_of_le (le_of_lt hn)
    rw [List.take_append_eq_append_take, hz] at hx
    simp only [List.take_zero, List.append_nil] at hx
    exact absurd (List.take_subset _ _ hx) hxA

/-- C4: commit-before-notify. In every execution of the create handler —
whatever the validation outcome, the per-attempt insert verdicts, the retry
states and the random delays — every `notify` event in the trace is preceded
by a `commitTxn` event (every trace prеfix containing a broadcast contains a
commit), at most one `order_created` broadcast is ever published, and on
every execution whose transaction work ended rolled back (no row created)
no broadcast is published at all. -/
theorem createOrder_commit_before_notify (db : List OrderRow) (c : Nat) (u : Option Nat)
    (b : Body) (now newId : Nat) (dbAt : Nat → List OrderRow)
    (outcomes : Nat → InsertOutcome) (rand : Nat → ℚ) :
    (∀ (n : Nat) (ty : String),
      Ev.notify ty ∈ (createOrder db c u b now newId dbAt outcomes rand).trace.take n →
      Ev.commitTxn ∈ (createOrder db c u b now newId dbAt outcomes rand).trace.take n)
    ∧ (createOrder db c u b now newId dbAt outcomes rand).trace.count
        (Ev.notify "order_created") ≤ 1
    ∧ ((createOrder db c u b now newId dbAt outcomes rand).newRow = none →
        ∀ ty, Ev.notify ty ∉ (createOrder db c u b now newId dbAt outcomes rand).trace) := by
  by_cases h1 : (jsFalsyS b.customer || jsFalsyS b.phone)
  · simp only [createOrder, h1, if_true]
    refine ⟨?_, by simp, ?_⟩
    · intro n ty hmem
      have := List.take_subset n _ hmem
      simp at this
    · intro _ ty
      simp
  · by_cases h2 : jsFalsyS b.payment
    · simp only [createOrder, h1, h2, if_true, if_false]
      refine ⟨?_, by simp, ?_⟩
      · intro n ty hmem
        have := List.take_subset n _ hmem
        simp at this
      · intro _ ty
        simp
    · simp only [createOrder, h1, h2, Bool.false_eq_true, if_false]
      set L := createLoop dbAt outcomes rand c
        (deriveOrderSeqDate (jsOrStr b.orderType "active") (jsOrNullNat b.scheduledAt) now)
        (fun seq =>
          insertedRow c newId (jsOrStr b.orderNo (defaultOrderNo now)) seq
            (deriveOrderSeqDate (jsOrStr b.orderType "active") (jsOrNullNat b.scheduledAt) now)
            (jsOrStr b.orderType "active") b u (coercePaymentMethod b.payment)
            (normalizeItemsAndAmounts (b.selectedItems.getD [])) now) 4 1 with hL
      have hnn : ∀ ty, Ev.notify ty ∉ L.1 := by
        rw [hL]
        intro ty
        exact createLoop_no_notify _ _ _ _ _ _ 4 1 ty
      rcases hres : L.2 with _ | row
      · dsimp only
        refine ⟨?_, ?_, ?_⟩
        · intro n ty hmem
          exfalso
          have hm := List.take_subset n _ hmem
          rcases List.mem_append.mp hm with hm | hm
          · exact hnn ty hm
          · simp at hm
        · rw [List.count_append, List.count_eq_zero_of_not_mem (hnn "order_created")]
          have h1c : ([Ev.respond 500] : List Ev).count (Ev.notify "order_created") = 0 := by
            decide
          rw [h1c]
          omega
        · intro _ ty hm
          rcases List.mem_append.mp hm with hm | hm
          · exact hnn ty hm
          · simp at hm
      · dsimp only
        have hcommit : Ev.commitTxn ∈ L.1 := by
          rw [hL] at hres ⊢
          exact createLoop_some_commit _ _ _ _ _ _ 4 1 row hres
        refine ⟨?_, ?_, ?_⟩
        · intro n ty hmem
          have hsplit : L.1 ++ [Ev.respond 200, Ev.notify "order_created"]
              = (L.1 ++ [Ev.respond 200]) ++ [Ev.notify "order_created"] := by
            simp
          rw [hsplit] at hmem ⊢
          refine mem_take_append_of_mem (List.mem_append_left _ hcommit) ?_ n hmem
          intro hm
          rcases List.mem_append.mp hm with hm | hm
          · exact hnn ty hm
          · simp at hm
        · rw [List.count_append, List.count_eq_zero_of_not_mem (hnn "order_created")]
          have h1c : ([Ev.respond 200, Ev.notify "order_created"] : List Ev).count
              (Ev.notify "order_created") = 1 := by
            decide
          rw [h1c]
        · intro hcontra
          cases hcontra

/-- Witness for C4: on a run whose single insert attempt fails with a
non-duplicate error (transaction rolled back, nothing created), the create
handler publishes no `order_created` broadcast. -/
theorem createOrder_commit_before_notify_witness :
    Ev.notify "order_created" ∉
      (createOrder [] 1 none body1 1726826400000 1 (fun _ => [])
        (fun _ => InsertOutcome.otherError) (fun _ => 0)).trace :=
  (createOrder_commit_before_notify [] 1 none body1 1726826400000 1 (fun _ => [])
    (fun _ => InsertOutcome.otherError) (fun _ => 0)).2.2 (by decide) "order_created"

/-- C7: when the customer identity, the contact phone, or the payment method
is missing (JS-falsy) in the request body, the create handler answers 400
immediately: its whole observable trace is that one response — no transaction
is begun, no insert is attempted, no broadcast is published — and the stored
table is untouched. -/
theorem createOrder_validation (db : List OrderRow) (c : Nat) (u : Option Nat)
    (b : Body) (now newId : Nat) (dbAt : Nat → List OrderRow)
    (outcomes : Nat → InsertOutcome) (rand : Nat → ℚ)
    (h : jsFalsyS b.customer = true ∨ jsFalsyS b.phone = true ∨ jsFalsyS b.payment = true) :
    (createOrder db c u b now newId dbAt outcomes rand).trace = [Ev.respond 400]
    ∧ (createOrder db c u b now newId dbAt outcomes rand).db = db
    ∧ (createOrder db c u b now newId dbAt outcomes rand).newRow = none
    ∧ Ev.beginTxn ∉ (createOrder db c u b now newId dbAt outcomes rand).trace
    ∧ (∀ s, Ev.insertRow s ∉ (createOrder db c u b now newId dbAt outcomes rand).trace)
    ∧ (∀ ty, Ev.notify ty ∉ (createOrder db c u b now newId dbAt outcomes rand).trace) := by
  by_cases h1 : (jsFalsyS b.customer || jsFalsyS b.phone)
  · simp only [createOrder, h1, if_true]
    simp
  · have h2 : jsFalsyS b.payment = true := by
      rcases h with h | h | h
      · exact absurd (by simp [h]) h1
      · exact absurd (by simp [h]) h1
      · exact h
    simp only [createOrder, h1, h2, if_true, Bool.false_eq_true, if_false]
    simp

/-- The concrete valid body with the contact phone removed. -/
def bodyNoPhone : Body :=
  { body1 with phone := none }

/-- Witness for C7: a create request without a phone gets the bare 400
response and leaves the (empty) table untouched, with no broadcast. -/
theorem createOrder_validation_witness :
    (createOrder [] 1 none bodyNoPhone 1726826400000 1 (fun _ => [])
        (fun _ => InsertOutcome.ok) (fun _ => 0)).trace = [Ev.respond 400]
    ∧ (createOrder [] 1 none bodyNoPhone 1726826400000 1 (fun _ => [])
        (fun _ => InsertOutcome.ok) (fun _ => 0)).db = [] :=
  ⟨(createOrder_validation [] 1 none bodyNoPhone 1726826400000 1 (fun _ => [])
      (fun _ => InsertOutcome.ok) (fun _ => 0) (Or.inr (Or.inl (by decide)))).1,
   (createOrder_validation [] 1 none bodyNoPhone 1726826400000 1 (fun _ => [])
      (fun _ => InsertOutcome.ok) (fun _ => 0) (Or.inr (Or.inl (by decide)))).2.1⟩

/-! ## C5: contention retry policy and the error it surfaces -/

/-- The event trace of a create whose five insert attempts all hit
`ER_DUP_ENTRY`: five transactions each rolled back, a randomized
`10 + Math.random() * 40` millisecond sleep between attempts (none after the
fifth), and the generic 500 response. -/
def contentionTrace (dbAt : Nat → List OrderRow) (rand : Nat → ℚ) (c : Nat)
    (dateStr : String) : List Ev :=
  [.beginTxn, .insertRow (allocateDailySeq (dbAt 1) c dateStr), .rollbackTxn,
   .sleep (10 + rand 1 * 40),
   .beginTxn, .insertRow (allocateDailySeq (dbAt 2) c dateStr), .rollbackTxn,
   .sleep (10 + rand 2 * 40),
   .beginTxn, .insertRow (allocateDailySeq (dbAt 3) c dateStr), .rollbackTxn,
   .sleep (10 + rand 3 * 40),
   .beginTxn, .insertRow (allocateDailySeq (dbAt 4) c dateStr), .rollbackTxn,
   .sleep (10 + rand 4 * 40),
   .beginTxn, .insertRow (allocateDailySeq (dbAt 5) c dateStr), .rollbackTxn,
   .respond 500]

/-- C5 counterexample: exhausting the duplicate-key retry bound does NOT
surface a distinct ContentionExceeded error mapped to HTTP 409 — the handler
catches the rethrown `ER_DUP_ENTRY` in its generic handler and responds 500,
exactly like any other persistence failure; no 409 response exists anywhere
in the trace. -/
theorem createOrder_contention_no409 :
    Ev.respond 500 ∈
      (createOrder [] 1 none body1 1726826400000 1 (fun _ => [])
        (fun _ => InsertOutcome.dupEntry) (fun _ => 0)).trace
    ∧ Ev.respond 409 ∉
      (createOrder [] 1 none body1 1726826400000 1 (fun _ => [])
        (fun _ => InsertOutcome.dupEntry) (fun _ => 0)).trace := by
  constructor
  · decide
  · decide

/-- C5 (amended): when every insert attempt conflicts with `ER_DUP_ENTRY`,
the create handler retries the whole transaction from `beginTransaction`,
recomputing the partition max each time, sleeping `10 + Math.random() * 40`
milliseconds between attempts, for a bound of 5 attempts in total; exhausting
the bound surfaces the generic persistence failure (HTTP 500) — not a
distinct ContentionExceeded/409 error — creates nothing, and leaves the
table untouched. -/
theorem createOrder_contention_500 (db : List OrderRow) (c : Nat) (u : Option Nat)
    (b : Body) (now newId : Nat) (dbAt : Nat → List OrderRow)
    (outcomes : Nat → InsertOutcome) (rand : Nat → ℚ)
    (hc : jsFalsyS b.customer = false) (hph : jsFalsyS b.phone = false)
    (hpay : jsFalsyS b.payment = false)
    (hdup : ∀ i, outcomes i = InsertOutcome.dupEntry) :
    (createOrder db c u b now newId dbAt outcomes rand).trace
      = contentionTrace dbAt rand c
          (deriveOrderSeqDate (jsOrStr b.orderType "active") (jsOrNullNat b.scheduledAt) now)
    ∧ (createOrder db c u b now newId dbAt outcomes rand).db = db
    ∧ (createOrder db c u b now newId dbAt outcomes rand).newRow = none := by
  have h1 : (jsFalsyS b.customer || jsFalsyS b.phone) = false := by
    rw [hc, hph]
    rfl
  simp only [createOrder, h1, hpay, Bool.false_eq_true, if_false]
  simp only [createLoop, hdup 1, hdup 2, hdup 3, hdup 4, hdup 5]
  simp [contentionTrace]

/-- Witness for C5 (amended): for the concrete valid body with an all-dup
database oracle, the create handler's trace is exactly the five-attempt
contention trace ending in the 500 response, and nothing is created. -/
theorem createOrder_contention_500_witness :
    (createOrder [] 1 none body1 1726826400000 1 (fun _ => [])
        (fun _ => InsertOutcome.dupEntry) (fun _ => (0 : ℚ))).trace
      = contentionTrace (fun _ => []) (fun _ => (0 : ℚ)) 1
          (deriveOrderSeqDate (jsOrStr body1.orderType "active")
            (jsOrNullNat body1.scheduledAt) 1726826400000)
    ∧ (createOrder [] 1 none body1 1726826400000 1 (fun _ => [])
        (fun _ => InsertOutcome.dupEntry) (fun _ => (0 : ℚ))).newRow = none :=
  ⟨(createOrder_contention_500 [] 1 none body1 1726826400000 1 (fun _ => [])
      (fun _ => InsertOutcome.dupEntry) (fun _ => (0 : ℚ)) (by decide) (by decide)
      (by decide) (fun i => rfl)).1,
   (createOrder_contention_500 [] 1 none body1 1726826400000 1 (fun _ => [])
      (fun _ => InsertOutcome.dupEntry) (fun _ => (0 : ℚ)) (by decide) (by decide)
      (by decide) (fun i => rfl)).2.2⟩

/-! ## C9: the list handler truncates at 500 -/

theorem rowBefore_iff (a b : OrderRow) :
    rowBefore a b = true ↔
      b.created_at < a.created_at
        ∨ (b.created_at = a.created_at ∧ b.order_id ≤ a.order_id) := by
  unfold rowBefore
  simp only [Bool.or_eq_true, Bool.and_eq_true, Nat.blt_eq, Nat.ble_eq, beq_iff_eq]

theorem rowBefore_total (a b : OrderRow) : (rowBefore a b || rowBefore b a) = true := by
  rcases Nat.lt_trichotomy a.created_at b.created_at with h | h | h
  · have hb : rowBefore b a = true := (rowBefore_iff b a).mpr (Or.inl h)
    simp [hb]
  · rcases Nat.le_total a.order_id b.order_id with h2 | h2
    · have hb : rowBefore b a = true := (rowBefore_iff b a).mpr (Or.inr ⟨h, h2⟩)
      simp [hb]
    · have ha : rowBefore a b = true := (rowBefore_iff a b).mpr (Or.inr ⟨h.symm, h2⟩)
      simp [ha]
  · have ha : rowBefore a b = true := (rowBefore_iff a b).mpr (Or.inl h)
    simp [ha]

theorem rowBefore_trans (a b c : OrderRow) (h1 : rowBefore a b = true)
    (h2 : rowBefore b c = true) : rowBefore a c = true := by
  rw [rowBefore_iff] at h1 h2 ⊢
  rcases h1 with h1 | ⟨h1e, h1i⟩ <;> rcases h2 with h2 | ⟨h2e, h2i⟩
  · exact Or.inl (by omega)
  · exact Or.inl (by omega)
  · exact Or.inl (by omega)
  · exact Or.inr ⟨by omega, by omega⟩

/-- C9: the list handler returns at most 500 rows — exactly 500 whenever at
least 500 rows of the tenant match the tab filter, however many more there
are — sorted by `created_at` descending with ties broken by `order_id`
descending, and every returned row belongs to the requesting tenant and
passes the tab filter. -/
theorem listOrders_correct (db : List OrderRow) (c : Nat) (tab : Option String) :
    (listOrders db c tab).length ≤ 500
    ∧ (500 ≤ (db.filter (fun r => r.company_id == c
          && tabFilter (jsToLower (jsOrStr tab "active")) r)).length →
        (listOrders db c tab).length = 500)
    ∧ (listOrders db c tab).Pairwise (fun a b => rowBefore a b = true)
    ∧ (∀ r ∈ listOrders db c tab,
        r ∈ db ∧ r.company_id = c
          ∧ tabFilter (jsToLower (jsOrStr tab "active")) r = true) := by
  refine ⟨?_, ?_, ?_, ?_⟩
  · simp only [listOrders, List.length_take]
    exact min_le_left _ _
  · intro hlen
    have hperm := List.mergeSort_perm (db.filter (fun r => r.company_id == c
      && tabFilter (jsToLower (jsOrStr tab "active")) r)) rowBefore
    have hlm := hperm.length_eq
    simp only [listOrders, List.length_take]
    omega
  · have hsorted := @List.sorted_mergeSort OrderRow rowBefore
      (fun a b c h1 h2 => rowBefore_trans a b c h1 h2)
      (fun a b => rowBefore_total a b)
      (db.filter (fun r => r.company_id == c
        && tabFilter (jsToLower (jsOrStr tab "active")) r))
    exact List.Pairwise.sublist (List.take_sublist _ _) hsorted
  · intro r hr
    simp only [listOrders] at hr
    have hr1 := List.take_subset _ _ hr
    have hperm := List.mergeSort_perm (db.filter (fun r => r.company_id == c
      && tabFilter (jsToLower (jsOrStr tab "active")) r)) rowBefore
    have hr2 := hperm.mem_iff.mp hr1
    have hr3 := List.mem_filter.mp hr2
    rcases hr3 with ⟨hdb, hpred⟩
    rw [Bool.and_eq_true] at hpred
    rcases hpred with ⟨hcid, htab⟩
    exact ⟨hdb, eq_of_beq hcid, htab⟩

/-- Witness for C9: for a single stored order of tenant 2, the default
(`active`) listing for tenant 2 returns it — the full claim instantiated at a
concrete table where fewer than 500 rows match. -/
theorem listOrders_correct_witness :
    (listOrders [rowT2] 2 none).length ≤ 500
    ∧ (∀ r ∈ listOrders [rowT2] 2 none, r ∈ [rowT2] ∧ r.company_id = 2
        ∧ tabFilter (jsToLower (jsOrStr none "active")) r = true) :=
  ⟨(listOrders_correct [rowT2] 2 none).1,
   (listOrders_correct [rowT2] 2 none).2.2.2⟩

/-! ## C10: status transition for a missing order -/

/-- C10: a status-transition request that carries a status but names an order
id with no row for the caller's tenant still answers HTTP 200 with a bare
`ok:true` body — not a 404 — publishes no broadcast, and leaves every stored
row unchanged. -/
theorem patchStatus_missing_order (db : List OrderRow) (c oid : Nat)
    (status : Option String) (now : Nat)
    (hstatus : jsFalsyS status = false)
    (hmiss : ∀ r ∈ db, ¬(r.company_id = c ∧ r.order_id = oid)) :
    (patchStatus db c oid status now).httpStatus = 200
    ∧ (patchStatus db c oid status now).bodyOk = true
    ∧ (patchStatus db c oid status now).notifications = []
    ∧ (patchStatus db c oid status now).db = db := by
  have hpred : ∀ r ∈ db, (r.company_id == c && r.order_id == oid) = false := by
    intro r hr
    have hne := hmiss r hr
    by_cases h1 : r.company_id = c
    · have h2 : r.order_id ≠ oid := fun h2 => hne ⟨h1, h2⟩
      simp [beq_eq_false_iff_ne.mpr h2]
    · simp [beq_eq_false_iff_ne.mpr h1]
  have hmap : db.map (fun r =>
      if r.company_id == c && r.order_id == oid then
        { r with status := status.getD "", updated_at := now }
      else r) = db := by
    have hcg : db.map (fun r =>
        if r.company_id == c && r.order_id == oid then
          { r with status := status.getD "", updated_at := now }
        else r) = db.map id :=
      List.map_congr_left (fun r hr => by
        rw [hpred r hr]
        rfl)
    rw [hcg, List.map_id]
  have hfilter : db.filter (fun r => r.company_id == c && r.order_id == oid) = [] :=
    List.filter_eq_nil_iff.mpr (fun r hr => by simp [hpred r hr])
  simp only [patchStatus, hstatus, Bool.false_eq_true, if_false]
  rw [hmap, hfilter]
  exact ⟨rfl, rfl, rfl, rfl⟩

/-- Witness for C10: patching order 7 under tenant 1 while the only stored
row belongs to tenant 2 answers 200 `ok:true`, broadcasts nothing, and leaves
the table exactly as it was. -/
theorem patchStatus_missing_order_witness :
    (patchStatus [rowT2] 1 7 (some "ready") 5).httpStatus = 200
    ∧ (patchStatus [rowT2] 1 7 (some "ready") 5).notifications = []
    ∧ (patchStatus [rowT2] 1 7 (some "ready") 5).db = [rowT2] :=
  ⟨(patchStatus_missing_order [rowT2] 1 7 (some "ready") 5 (by decide) (by decide)).1,
   (patchStatus_missing_order [rowT2] 1 7 (some "ready") 5 (by decide) (by decide)).2.2.1,
   (patchStatus_missing_order [rowT2] 1 7 (some "ready") 5 (by decide) (by decide)).2.2.2⟩
